import Mathlib

/-!
Verification of `qbt_add.py`: a shallow embedding in Lean 4 of the rule
matcher, tracker hostname extractor, upload-limit conversion, login check
and the orchestrator (`main`) of the script, together with theorems about
the behaviours its specification describes.

External collaborators are modelled as parameters:
* Python's `re` module is a parameter `rc : String → Option (String → Bool)`:
  `rc pat = none` models `re.compile`/`re.search` raising `re.error`
  (invalid pattern), `rc pat = some f` models a valid pattern whose
  `re.search(pat, host)` succeeds exactly when `f host = true`.
* `urllib.parse.urlparse` is a parameter
  `ph : String → Option (Option String)`: `ph url = none` models `urlparse`
  raising, `ph url = some none` a parse with `hostname` equal to `None`,
  and `ph url = some (some h)` a parse whose `hostname` is `h`.
* The remote qBittorrent WebUI, the clock and the file system are fields of
  an environment record `Env` consumed by the orchestrator model `mainRun`.
-/

namespace QbtAdd

/-- Subset of Python/YAML scalar values that can appear as an `up_limit_kib`
entry in the rules file: `None`, booleans, integers and strings. -/
inductive PyVal where
  | vNone : PyVal
  | vBool : Bool → PyVal
  | vInt : Int → PyVal
  | vStr : String → PyVal
deriving DecidableEq, Repr

/-- Model of Python `int(s)` on a string: optional surrounding whitespace,
an optional sign, then decimal digits; anything else raises `ValueError`
(modelled as `none`). -/
def pyIntOfString (s : String) : Option Int :=
  let t := s.trim
  let (sign, digits) :=
    if t.startsWith "-" then ((-1 : Int), t.drop 1)
    else if t.startsWith "+" then ((1 : Int), t.drop 1)
    else ((1 : Int), t)
  if digits = "" then none
  else if digits.all (fun c => c.isDigit) then
    some (sign * (Int.ofNat (digits.foldl (fun acc c => acc * 10 + (c.toNat - 48)) 0)))
  else none

/-- Model of Python `int(x)`: `TypeError` on `None` (modelled as `none`),
booleans coerce to 0/1, integers are returned as-is, strings are parsed
as decimal integers (`ValueError`, i.e. `none`, on failure). -/
def intCoerce : PyVal → Option Int
  | PyVal.vNone => none
  | PyVal.vBool b => some (if b then 1 else 0)
  | PyVal.vInt n => some n
  | PyVal.vStr s => pyIntOfString s

/-- Python truthiness of an optional string (`dict.get` result): truthy
exactly when present and non-empty. -/
def truthyStr : Option String → Bool
  | none => false
  | some s => s ≠ ""

/-- One entry of the `rules:` list of the rules file.  Each field is the
value of the corresponding YAML key, `none` when the key is absent
(`dict.get` returning `None`). `match_` stands for the Python key
`"match"` (a Lean keyword). -/
structure Rule where
  match_ : Option String
  match_regex : Option String
  category : Option String
  up_limit_kib : Option PyVal
deriving DecidableEq, Repr

/-- The `defaults:` mapping of the rules file. -/
structure Defaults where
  category : Option String
  up_limit_kib : Option PyVal
deriving DecidableEq, Repr

/-- The loaded rules configuration (`load_rules` guarantees both keys). -/
structure RulesCfg where
  rules : List Rule
  defaults : Defaults
deriving DecidableEq, Repr

/-- Exact-match test of `match_rules`: Python `match and host == match`. -/
def exactHit (r : Rule) (host : String) : Bool :=
  match r.match_ with
  | none => false
  | some m => m ≠ "" && host == m

/-- Regex test of `match_rules`: Python
`elif match_regex: try: if re.search(match_regex, host): ... except re.error: pass`.
An invalid pattern (`rc p = none`) is a non-match. -/
def regexHit (rc : String → Option (String → Bool)) (r : Rule) (host : String) : Bool :=
  match r.match_regex with
  | none => false
  | some p =>
    if p = "" then false
    else
      match rc p with
      | none => false
      | some f => f host

/-- The `is_hit` computation for one rule and one host (lines 156-167 of
`qbt_add.py`); the `elif` makes the regex test run only when the exact
test fails, which is the boolean disjunction below. -/
def ruleHits (rc : String → Option (String → Bool)) (r : Rule) (host : String) : Bool :=
  exactHit r host || regexHit rc r host

/-- Inner loop of `match_rules`: first rule (in list order) hitting `host`. -/
def scanRules (rc : String → Option (String → Bool)) (host : String) :
    List Rule → Option Rule
  | [] => none
  | r :: rs => if ruleHits rc r host then some r else scanRules rc host rs

/-- Outer loop of `match_rules`: hosts-outer, rules-inner; the first host
for which some rule hits yields that rule. -/
def scanHosts (rc : String → Option (String → Bool)) (rules : List Rule) :
    List String → Option Rule
  | [] => none
  | h :: hs =>
    match scanRules rc h rules with
    | some r => some r
    | none => scanHosts rc rules hs

/-- Result returned on the first hit (lines 168-177): the rule's category
when present and truthy, else `None`; the rule's `up_limit_kib` coerced by
`int(...)` when present and coercible, else `None`. -/
def ruleOutcome (r : Rule) : Option String × Option Int :=
  ((if truthyStr r.category then r.category else none), r.up_limit_kib.bind intCoerce)

/-- Fallback on the defaults (lines 179-186): category when truthy, limit
when the key is present and `int(...)` succeeds. -/
def defaultsOutcome (d : Defaults) : Option String × Option Int :=
  ((if truthyStr d.category then d.category else none), d.up_limit_kib.bind intCoerce)

/-- Embedding of `match_rules(hosts, rules_cfg)` (lines 148-188), with the
`re` module abstracted as `rc`. -/
def match_rules (rc : String → Option (String → Bool)) (hosts : List String)
    (cfg : RulesCfg) : Option String × Option Int :=
  match scanHosts rc cfg.rules hosts with
  | some r => ruleOutcome r
  | none => defaultsOutcome cfg.defaults

/-- One tracker record as returned by the trackers endpoint; only the
`url` field is consumed (`tr.get("url", "")`, an absent key modelled as
the empty string, which the code skips the same way). -/
structure Tracker where
  url : String
deriving DecidableEq, Repr

/-- First pass of `extract_hostnames_from_trackers` (lines 112-122): the
`hosts` list, keeping for each tracker the parsed hostname when the url is
non-empty, parsing does not raise and `hostname` is not `None`. -/
def rawHosts (ph : String → Option (Option String)) : List Tracker → List String
  | [] => []
  | t :: ts =>
    if t.url = "" then rawHosts ph ts
    else
      match ph t.url with
      | none => rawHosts ph ts
      | some none => rawHosts ph ts
      | some (some h) => h :: rawHosts ph ts

/-- Second pass (lines 124-129): the `seen` set / `unique_hosts` loop,
keeping the first occurrence of each hostname. -/
def dedupAux (seen : List String) : List String → List String
  | [] => []
  | h :: t => if h ∈ seen then dedupAux seen t else h :: dedupAux (h :: seen) t

/-- Embedding of `extract_hostnames_from_trackers(trackers)` (lines
111-130), with `urlparse` abstracted as `ph`. -/
def extract_hostnames_from_trackers (ph : String → Option (Option String))
    (trackers : List Tracker) : List String :=
  dedupAux [] (rawHosts ph trackers)

/-- Value submitted by `qb_set_upload_limit` (lines 218-225) as the
`limit` form field, in bytes/s: `none` when no limit was decided (the
function returns without a request), otherwise `max(0, limit * 1024)`. -/
def qb_set_upload_limit (limit_kib_per_s : Option Int) : Option Int :=
  match limit_kib_per_s with
  | none => none
  | some k => some (max 0 (k * 1024))

/-- An HTTP response as the script observes it: status code and body. -/
structure Response where
  status : Nat
  text : String
deriving DecidableEq, Repr

/-- A torrent record from the list-by-tag endpoint (`hash` field,
possibly absent). -/
structure Torrent where
  hash : Option String
deriving DecidableEq, Repr

/-- Remote calls `main` can make after argument parsing, in the order the
script issues them; the recorded trace is the observable interaction with
the WebUI. -/
inductive Action where
  | loginCall : Action
  | addCall : Action
  | queryByTag : Nat → Action
  | getTrackersCall : Action
  | getCategoriesCall : Action
  | createCategoryCall : String → Action
  | setCategoryCall : String → Action
  | setUploadLimitCall : Int → Action
  | removeTagCall : Action
  | resumeCall : Action
deriving DecidableEq, Repr

/-- How a run ends: `sys.exit(code)` (also an uncaught `RuntimeError`,
which terminates the interpreter with code 1), or the final summary print. -/
inductive Outcome where
  | exited : Nat → Outcome
  | completed : Outcome
deriving DecidableEq, Repr

/-- Embedding of `qb_login` (lines 63-70). Returns whether the login POST
was issued, and `some code` when the function calls `sys.exit(code)`:
missing/empty credentials exit 2 before any request; a response that is
not status 200 with body exactly "Ok." exits 1. -/
def qb_login (username password : Option String) (resp : Response) :
    Bool × Option Nat :=
  if ¬ (truthyStr username = true ∧ truthyStr password = true) then (false, some 2)
  else if resp.status ≠ 200 ∨ resp.text ≠ "Ok." then (true, some 1)
  else (true, none)

/-- Environment of one run: credentials and flags from the command line,
and the responses the remote client, file system and clock would produce.
`maxPolls` is the number of iterations the `while time.time() < deadline`
loop admits before the deadline elapses; `pollResults i` is the JSON array
the i-th list-by-tag query returns. `rulesFile = none` models a missing or
unparsable rules file (both exit 2 in `load_rules`), `sourceOk = false` a
non-magnet source path that does not exist. `trackersOk`/`categoriesOk`
model the status-200 check of the two fatal query calls, whose failure
raises an uncaught `RuntimeError`. -/
structure Env where
  username : Option String
  password : Option String
  loginResp : Response
  rulesFile : Option RulesCfg
  sourceOk : Bool
  addResp : Response
  maxPolls : Nat
  pollResults : Nat → List Torrent
  trackersOk : Bool
  trackers : List Tracker
  categoriesOk : Bool
  categories : List String
  noUnpause : Bool

/-- The registration poll loop (lines 254-260): query by tag at most `n`
more times starting with query index `i`; stop at the first non-empty
result or when the deadline admits no further iteration. Returns the
trace of queries and the final `torrents` value. -/
def pollLoop (f : Nat → List Torrent) : Nat → Nat → List Action × List Torrent
  | 0, _ => ([], [])
  | n + 1, i =>
    if f i = [] then
      ((Action.queryByTag i) :: (pollLoop f n (i + 1)).1, (pollLoop f n (i + 1)).2)
    else ([Action.queryByTag i], f i)

/-- Upload-limit step of `main` (line 279 calling lines 218-225): no call
when no limit was decided, otherwise one set-upload-limit call carrying
the converted value. -/
def limitActions (lim : Option Int) : List Action :=
  match qb_set_upload_limit lim with
  | none => []
  | some b => [Action.setUploadLimitCall b]

/-- Category step of `main` (lines 275-277 calling 191-215): list
categories, create the category only when absent, then set it. -/
def categoryActions (existing : List String) (c : String) : List Action :=
  Action.getCategoriesCall ::
    ((if c ∈ existing then [] else [Action.createCategoryCall c]) ++
      [Action.setCategoryCall c])

/-- Trailing best-effort steps of `main` (lines 279-284): upload limit,
tag removal, and resume unless suppressed by `--no-unpause`. -/
def tailActions (env : Env) (lim : Option Int) : List Action :=
  limitActions lim ++ [Action.removeTagCall] ++
    (if env.noUnpause then [] else [Action.resumeCall])

/-- Embedding of `main` (lines 239-293) after argument parsing: the trace
of remote calls made, and how the run ends. Follows the source line by
line: login, rules load, add, registration poll, trackers fetch, rule
match, category/limit application, tag cleanup, resume. -/
def mainRun (rc : String → Option (String → Bool))
    (ph : String → Option (Option String)) (env : Env) : List Action × Outcome :=
  match qb_login env.username env.password env.loginResp with
  | (called, some code) => ((if called then [Action.loginCall] else []), Outcome.exited code)
  | (_, none) =>
    match env.rulesFile with
    | none => ([Action.loginCall], Outcome.exited 2)
    | some cfg =>
      if env.sourceOk = false then ([Action.loginCall], Outcome.exited 2)
      else if env.addResp.status ≠ 200 then
        ([Action.loginCall, Action.addCall], Outcome.exited 1)
      else
        let ptrace := (pollLoop env.pollResults env.maxPolls 0).1
        let pre := Action.loginCall :: Action.addCall :: ptrace
        match (pollLoop env.pollResults env.maxPolls 0).2 with
        | [] => (pre, Outcome.exited 1)
        | _ :: _ =>
          if env.trackersOk = false then
            (pre ++ [Action.getTrackersCall], Outcome.exited 1)
          else
            let hosts := extract_hostnames_from_trackers ph env.trackers
            let res := match_rules rc hosts cfg
            match res.1 with
            | some c =>
              if c = "" then
                (pre ++ [Action.getTrackersCall] ++ tailActions env res.2,
                  Outcome.completed)
              else if env.categoriesOk = false then
                (pre ++ [Action.getTrackersCall, Action.getCategoriesCall],
                  Outcome.exited 1)
              else
                (pre ++ [Action.getTrackersCall] ++ categoryActions env.categories c ++
                  tailActions env res.2, Outcome.completed)
            | none =>
              (pre ++ [Action.getTrackersCall] ++ tailActions env res.2,
                Outcome.completed)

/-! ### Lemmas about the rule scan -/

lemma scanRules_none (rc : String → Option (String → Bool)) (host : String) :
    ∀ rules : List Rule, (∀ r ∈ rules, ruleHits rc r host = false) →
      scanRules rc host rules = none
  | [], _ => rfl
  | r :: rs, h => by
      have h0 := h r (List.mem_cons_self r rs)
      simp only [scanRules, h0]
      exact scanRules_none rc host rs (fun r' hr' => h r' (List.mem_cons_of_mem r hr'))

lemma scanRules_first (rc : String → Option (String → Bool)) (host : String) :
    ∀ (rules : List Rule) (j : Nat) (hj : j < rules.length),
      ruleHits rc rules[j] host = true →
      (∀ j', (hj' : j' < rules.length) → j' < j → ruleHits rc rules[j'] host = false) →
      scanRules rc host rules = some rules[j]
  | [], j, hj, _, _ => absurd hj (by simp)
  | r :: rs, 0, _, hhit, _ => by
      simp only [List.getElem_cons_zero] at hhit ⊢
      simp [scanRules, hhit]
  | r :: rs, j + 1, hj, hhit, hprev => by
      have h0 : ruleHits rc r host = false := by
        have := hprev 0 (by simp) (Nat.succ_pos j)
        simpa using this
      simp only [scanRules, h0, Bool.false_eq_true, if_false,
        List.getElem_cons_succ] at hhit ⊢
      exact scanRules_first rc host rs j (Nat.lt_of_succ_lt_succ hj) hhit
        (fun j' hj' hlt => by
          have := hprev (j' + 1) (by simpa using Nat.succ_lt_succ hj')
            (Nat.succ_lt_succ hlt)
          simpa using this)

lemma scanRules_mem (rc : String → Option (String → Bool)) (host : String) :
    ∀ (rules : List Rule) (r : Rule), scanRules rc host rules = some r → r ∈ rules
  | [], r, h => by simp [scanRules] at h
  | r0 :: rs, r, h => by
      by_cases hhit : ruleHits rc r0 host = true
      · simp [scanRules, hhit] at h
        exact h ▸ List.mem_cons_self r0 rs
      · simp [scanRules, hhit] at h
        exact List.mem_cons_of_mem r0 (scanRules_mem rc host rs r h)

lemma scanHosts_none (rc : String → Option (String → Bool)) (rules : List Rule) :
    ∀ hosts : List String, (∀ h ∈ hosts, scanRules rc h rules = none) →
      scanHosts rc rules hosts = none
  | [], _ => rfl
  | h :: hs, hyp => by
      have h0 := hyp h (List.mem_cons_self h hs)
      simp only [scanHosts, h0]
      exact scanHosts_none rc rules hs (fun h' hh' => hyp h' (List.mem_cons_of_mem h hh'))

lemma scanHosts_first (rc : String → Option (String → Bool)) (rules : List Rule) :
    ∀ (hosts : List String) (i : Nat) (hi : i < hosts.length) (r : Rule),
      scanRules rc hosts[i] rules = some r →
      (∀ i', (hi' : i' < hosts.length) → i' < i → scanRules rc hosts[i'] rules = none) →
      scanHosts rc rules hosts = some r
  | [], i, hi, _, _, _ => absurd hi (by simp)
  | h :: hs, 0, _, r, hfound, _ => by
      simp only [List.getElem_cons_zero] at hfound
      simp [scanHosts, hfound]
  | h :: hs, i + 1, hi, r, hfound, hprev => by
      have h0 : scanRules rc h rules = none := by
        have := hprev 0 (by simp) (Nat.succ_pos i)
        simpa using this
      simp only [scanHosts, h0, List.getElem_cons_succ] at hfound ⊢
      exact scanHosts_first rc rules hs i (Nat.lt_of_succ_lt_succ hi) r hfound
        (fun i' hi' hlt => by
          have := hprev (i' + 1) (by simpa using Nat.succ_lt_succ hi')
            (Nat.succ_lt_succ hlt)
          simpa using this)

lemma scanHosts_mem (rc : String → Option (String → Bool)) (rules : List Rule) :
    ∀ (hosts : List String) (r : Rule), scanHosts rc rules hosts = some r → r ∈ rules
  | [], r, h => by simp [scanHosts] at h
  | h0 :: hs, r, h => by
      rcases hsc : scanRules rc h0 rules with _ | r'
      · rw [scanHosts, hsc] at h
        exact scanHosts_mem rc rules hs r h
      · rw [scanHosts, hsc] at h
        cases h
        exact scanRules_mem rc h0 rules r hsc

/-- Concrete regex-oracle used by the witnesses: every pattern invalid. -/
def rcNone : String → Option (String → Bool) := fun _ => none

/-- Concrete url parser used by the witnesses: every url is its own
hostname. -/
def phId : String → Option (Option String) := fun u => some (some u)

/-- Claim C1: hosts-outer, rules-inner first match wins. If `hosts[i]` is
hit by `cfg.rules[j]`, no earlier hostname is hit by any rule and no
earlier rule hits `hosts[i]`, then `match_rules` returns exactly that
rule's outcome — its category when non-empty, its limit when coercible —
whatever the later hostnames, rules and the defaults are (so none of them
is consulted). -/
theorem C1_first_match_wins (rc : String → Option (String → Bool))
    (hosts : List String) (cfg : RulesCfg) (i j : Nat)
    (hi : i < hosts.length) (hj : j < cfg.rules.length)
    (hhit : ruleHits rc cfg.rules[j] hosts[i] = true)
    (hhosts : ∀ i', (hi' : i' < hosts.length) → i' < i →
      ∀ r ∈ cfg.rules, ruleHits rc r hosts[i'] = false)
    (hrules : ∀ j', (hj' : j' < cfg.rules.length) → j' < j →
      ruleHits rc cfg.rules[j'] hosts[i] = false) :
    match_rules rc hosts cfg =
      ((if truthyStr cfg.rules[j].category then cfg.rules[j].category else none),
        cfg.rules[j].up_limit_kib.bind intCoerce) := by
  have hscan : scanRules rc hosts[i] cfg.rules = some cfg.rules[j] :=
    scanRules_first rc hosts[i] cfg.rules j hj hhit hrules
  have hmain : scanHosts rc cfg.rules hosts = some cfg.rules[j] :=
    scanHosts_first rc cfg.rules hosts i hi cfg.rules[j] hscan
      (fun i' hi' hlt => scanRules_none rc hosts[i'] cfg.rules
        (fun r hr => hhosts i' hi' hlt r hr))
  rw [match_rules, hmain]
  rfl

/-- Witness for C1 at a concrete input: one hostname, one matching rule. -/
theorem C1_witness :
    (0 : Nat) < 1 ∧
    ruleHits rcNone
      { match_ := some "tracker.example.com", match_regex := none,
        category := some "movies", up_limit_kib := some (PyVal.vInt 500) }
      "tracker.example.com" = true ∧
    match_rules rcNone ["tracker.example.com"]
      { rules := [{ match_ := some "tracker.example.com", match_regex := none,
                    category := some "movies", up_limit_kib := some (PyVal.vInt 500) }],
        defaults := { category := none, up_limit_kib := none } } =
      (some "movies", some 500) := by
  refine ⟨Nat.one_pos, by decide, ?_⟩
  have h := C1_first_match_wins rcNone ["tracker.example.com"]
    { rules := [{ match_ := some "tracker.example.com", match_regex := none,
                  category := some "movies", up_limit_kib := some (PyVal.vInt 500) }],
      defaults := { category := none, up_limit_kib := none } }
    0 0 (by decide) (by decide) (by decide)
    (fun i' _ hlt => absurd hlt (Nat.not_lt_zero i'))
    (fun j' _ hlt => absurd hlt (Nat.not_lt_zero j'))
  simpa using h

/-- Claim C2: when no rule hits any hostname, `match_rules` falls back to
the defaults — category when non-empty, limit when present and coercible
(coercion failure degrades to absent) — and with an empty rule list and
empty defaults it returns `(none, none)` for every hostname list. -/
theorem C2_defaults_fallback (rc : String → Option (String → Bool))
    (hosts : List String) (cfg : RulesCfg)
    (hno : ∀ h ∈ hosts, ∀ r ∈ cfg.rules, ruleHits rc r h = false) :
    match_rules rc hosts cfg =
      ((if truthyStr cfg.defaults.category then cfg.defaults.category else none),
        cfg.defaults.up_limit_kib.bind intCoerce) ∧
    match_rules rc hosts
      { rules := [], defaults := { category := none, up_limit_kib := none } } =
      (none, none) := by
  constructor
  · have hmain : scanHosts rc cfg.rules hosts = none :=
      scanHosts_none rc cfg.rules hosts
        (fun h hh => scanRules_none rc h cfg.rules (fun r hr => hno h hh r hr))
    rw [match_rules, hmain, defaultsOutcome]
  · have hmain : scanHosts rc ([] : List Rule) hosts = none :=
      scanHosts_none rc [] hosts (fun _ _ => rfl)
    rw [match_rules]
    simp only at hmain
    rw [hmain]
    rfl

/-- Witness for C2 at a concrete input: a hostname matching no rule, with
defaults `{category: misc, up_limit_kib: 100}`. -/
theorem C2_witness :
    match_rules rcNone ["x.example.net"]
      { rules := [{ match_ := some "other.example.com", match_regex := none,
                    category := some "tv", up_limit_kib := none }],
        defaults := { category := some "misc", up_limit_kib := some (PyVal.vInt 100) } } =
      (some "misc", some 100) ∧
    match_rules rcNone ["x.example.net"]
      { rules := [], defaults := { category := none, up_limit_kib := none } } =
      (none, none) := by
  have h := C2_defaults_fallback rcNone ["x.example.net"]
    { rules := [{ match_ := some "other.example.com", match_regex := none,
                  category := some "tv", up_limit_kib := none }],
      defaults := { category := some "misc", up_limit_kib := some (PyVal.vInt 100) } }
    (by decide)
  exact ⟨by simpa using h.1, h.2⟩

/-- Claim C3: a rule whose `match_regex` is an invalid pattern (the regex
oracle reports `re.error`) is a non-match, so with such a rule first and a
validly matching rule second, `match_rules` returns the second rule's
outcome; nothing is raised (`match_rules` is total by construction). -/
theorem C3_invalid_regex_skipped (rc : String → Option (String → Bool))
    (host : String) (d : Defaults) (rest : List Rule) (r1 r2 : Rule) (p : String)
    (hm : exactHit r1 host = false)
    (hre : r1.match_regex = some p) (hp : p ≠ "") (hinv : rc p = none)
    (hhit : ruleHits rc r2 host = true) :
    ruleHits rc r1 host = false ∧
    match_rules rc [host] { rules := r1 :: r2 :: rest, defaults := d } =
      ((if truthyStr r2.category then r2.category else none),
        r2.up_limit_kib.bind intCoerce) := by
  have hregex : regexHit rc r1 host = false := by
    rw [regexHit, hre]
    simp [hp, hinv]
  have h1 : ruleHits rc r1 host = false := by
    rw [ruleHits, hm, hregex]
    rfl
  refine ⟨h1, ?_⟩
  have hscan : scanRules rc host (r1 :: r2 :: rest) = some r2 := by
    rw [scanRules, h1]
    simp only [Bool.false_eq_true, if_false]
    rw [scanRules, hhit]
    simp
  have hmain : scanHosts rc (r1 :: r2 :: rest) [host] = some r2 := by
    rw [scanHosts, hscan]
  rw [match_rules]
  simp only at hmain
  rw [hmain]
  rfl

/-- Witness for C3 at a concrete input: an unbalanced-parenthesis pattern
first (reported invalid by the oracle), an exact-match rule second. -/
theorem C3_witness :
    exactHit
      { match_ := none, match_regex := some "(bad", category := some "broken",
        up_limit_kib := none } "a.example.org" = false ∧
    ruleHits rcNone
      { match_ := some "a.example.org", match_regex := none, category := some "tv",
        up_limit_kib := none } "a.example.org" = true ∧
    match_rules rcNone ["a.example.org"]
      { rules := [{ match_ := none, match_regex := some "(bad",
                    category := some "broken", up_limit_kib := none },
                  { match_ := some "a.example.org", match_regex := none,
                    category := some "tv", up_limit_kib := none }],
        defaults := { category := none, up_limit_kib := none } } =
      (some "tv", none) := by
  refine ⟨by decide, by decide, ?_⟩
  have h := C3_invalid_regex_skipped rcNone "a.example.org"
    { category := none, up_limit_kib := none } []
    { match_ := none, match_regex := some "(bad", category := some "broken",
      up_limit_kib := none }
    { match_ := some "a.example.org", match_regex := none, category := some "tv",
      up_limit_kib := none }
    "(bad" (by decide) rfl (by decide) rfl (by decide)
  simpa using h.2

/-- Counterexample to claim C4 as stated: a rule with `up_limit_kib: -5`
makes `match_rules` return the negative limit `-5` — the matcher performs
no clamping (clamping to zero happens only later, in
`qb_set_upload_limit`). -/
theorem C4_counterexample :
    (match_rules rcNone ["h"]
        { rules := [{ match_ := some "h", match_regex := none, category := none,
                      up_limit_kib := some (PyVal.vInt (-5)) }],
          defaults := { category := none, up_limit_kib := none } }).2 =
      some (-5) ∧ ((-5 : Int) < 0) := by
  constructor
  · decide
  · decide

/-- Claim C4, amended: the limit returned by `match_rules`, when present,
is non-negative provided every `up_limit_kib` value in the rules and in
the defaults coerces (when it coerces at all) to a non-negative integer. -/
theorem C4_nonneg_limit_amended (rc : String → Option (String → Bool))
    (hosts : List String) (cfg : RulesCfg)
    (hrules : ∀ r ∈ cfg.rules, ∀ v, r.up_limit_kib = some v →
      ∀ n, intCoerce v = some n → 0 ≤ n)
    (hdef : ∀ v, cfg.defaults.up_limit_kib = some v →
      ∀ n, intCoerce v = some n → 0 ≤ n)
    (n : Int) (hn : (match_rules rc hosts cfg).2 = some n) : 0 ≤ n := by
  rw [match_rules] at hn
  rcases hres : scanHosts rc cfg.rules hosts with _ | r
  · rw [hres] at hn
    simp only [defaultsOutcome] at hn
    rcases Option.bind_eq_some.mp hn with ⟨v, hv, hcv⟩
    exact hdef v hv n hcv
  · rw [hres] at hn
    simp only [ruleOutcome] at hn
    rcases Option.bind_eq_some.mp hn with ⟨v, hv, hcv⟩
    exact hrules r (scanHosts_mem rc cfg.rules hosts r hres) v hv n hcv

/-- Witness for C4's amended claim: defaults limit 100, no rules. -/
theorem C4_witness :
    (match_rules rcNone ["x"]
        { rules := [],
          defaults := { category := none, up_limit_kib := some (PyVal.vInt 100) } }).2 =
      some 100 ∧ (0 : Int) ≤ 100 := by
  refine ⟨by decide, ?_⟩
  exact C4_nonneg_limit_amended rcNone ["x"]
    { rules := [],
      defaults := { category := none, up_limit_kib := some (PyVal.vInt 100) } }
    (fun r hr => absurd hr (List.not_mem_nil r))
    (fun v hv n hn => by
      cases hv
      simp [intCoerce] at hn
      omega)
    100 (by decide)

/-! ### Lemmas about the hostname dedup pass -/

lemma mem_dedupAux : ∀ (l seen : List String) (x : String),
    x ∈ dedupAux seen l ↔ (x ∈ l ∧ x ∉ seen)
  | [], seen, x => by simp [dedupAux]
  | h :: t, seen, x => by
      by_cases hh : h ∈ seen
      · simp only [dedupAux, if_pos hh, mem_dedupAux t seen x, List.mem_cons]
        constructor
        · exact fun ⟨hx, hs⟩ => ⟨Or.inr hx, hs⟩
        · rintro ⟨hx | hx, hs⟩
          · exact absurd (hx ▸ hh) hs
          · exact ⟨hx, hs⟩
      · simp only [dedupAux, if_neg hh, List.mem_cons, mem_dedupAux t (h :: seen) x]
        constructor
        · rintro (rfl | ⟨hx, hs⟩)
          · exact ⟨Or.inl rfl, hh⟩
          · exact ⟨Or.inr hx, fun hxs => hs (Or.inr hxs)⟩
        · rintro ⟨rfl | hx, hs⟩
          · exact Or.inl rfl
          · by_cases hxh : x = h
            · exact Or.inl hxh
            · exact Or.inr ⟨hx, by simp [List.mem_cons, hxh, hs]⟩

lemma nodup_dedupAux : ∀ (l seen : List String), (dedupAux seen l).Nodup
  | [], _ => List.nodup_nil
  | h :: t, seen => by
      by_cases hh : h ∈ seen
      · simpa [dedupAux, if_pos hh] using nodup_dedupAux t seen
      · simp only [dedupAux, if_neg hh]
        refine List.nodup_cons.mpr ⟨?_, nodup_dedupAux t (h :: seen)⟩
        intro hmem
        exact ((mem_dedupAux t (h :: seen) h).mp hmem).2 (List.mem_cons_self h seen)

lemma pairwise_indexOf_lift (h : String) (t : List String) :
    ∀ out : List String, (∀ x ∈ out, x ≠ h) →
      out.Pairwise (fun a b => t.indexOf a < t.indexOf b) →
      out.Pairwise (fun a b => (h :: t).indexOf a < (h :: t).indexOf b)
  | [], _, _ => List.Pairwise.nil
  | y :: ys, hne, hp => by
      rcases List.pairwise_cons.mp hp with ⟨hy, hys⟩
      refine List.pairwise_cons.mpr
        ⟨?_, pairwise_indexOf_lift h t ys
          (fun x hx => hne x (List.mem_cons_of_mem y hx)) hys⟩
      intro z hz
      have hyne : h ≠ y := Ne.symm (hne y (List.mem_cons_self y ys))
      have hzne : h ≠ z := Ne.symm (hne z (List.mem_cons_of_mem y hz))
      rw [List.indexOf_cons_ne t hyne, List.indexOf_cons_ne t hzne]
      exact Nat.succ_lt_succ (hy z hz)

lemma pairwise_dedupAux : ∀ (l seen : List String),
    (dedupAux seen l).Pairwise (fun a b => l.indexOf a < l.indexOf b)
  | [], _ => List.Pairwise.nil
  | h :: t, seen => by
      by_cases hh : h ∈ seen
      · simp only [dedupAux, if_pos hh]
        refine pairwise_indexOf_lift h t (dedupAux seen t) ?_ (pairwise_dedupAux t seen)
        intro x hx hxh
        exact ((mem_dedupAux t seen x).mp hx).2 (hxh ▸ hh)
      · simp only [dedupAux, if_neg hh]
        refine List.pairwise_cons.mpr ⟨?_, ?_⟩
        · intro z hz
          have hzne : h ≠ z := fun he =>
            ((mem_dedupAux t (h :: seen) z).mp hz).2 (he ▸ List.mem_cons_self h seen)
          rw [List.indexOf_cons_self, List.indexOf_cons_ne t hzne]
          exact Nat.succ_pos _
        · refine pairwise_indexOf_lift h t (dedupAux (h :: seen) t) ?_
            (pairwise_dedupAux t (h :: seen))
          intro x hx hxh
          exact ((mem_dedupAux t (h :: seen) x).mp hx).2
            (hxh ▸ List.mem_cons_self h seen)

/-- Claim C5: the extractor's output lists each extracted hostname exactly
once (no duplicates), contains exactly the hostnames some tracker yields,
and is ordered by first occurrence in the parsed tracker list: positions
in the output are strictly increasing in first-occurrence index. -/
theorem C5_dedup_first_occurrence (ph : String → Option (Option String))
    (trackers : List Tracker) :
    (extract_hostnames_from_trackers ph trackers).Nodup ∧
    (∀ x, x ∈ extract_hostnames_from_trackers ph trackers ↔
      x ∈ rawHosts ph trackers) ∧
    (extract_hostnames_from_trackers ph trackers).Pairwise
      (fun a b => (rawHosts ph trackers).indexOf a <
        (rawHosts ph trackers).indexOf b) := by
  refine ⟨nodup_dedupAux _ _, ?_, pairwise_dedupAux _ _⟩
  intro x
  rw [extract_hostnames_from_trackers, mem_dedupAux]
  simp

/-- Claim C6: the extractor is total (never raises): empty input yields
empty output, and a tracker whose url is empty, whose url fails to parse,
or whose parse yields no hostname, is skipped silently. -/
theorem C6_extractor_total (ph : String → Option (Option String))
    (t : Tracker) (ts : List Tracker) :
    extract_hostnames_from_trackers ph [] = [] ∧
    (t.url = "" →
      extract_hostnames_from_trackers ph (t :: ts) =
        extract_hostnames_from_trackers ph ts) ∧
    (ph t.url = none →
      extract_hostnames_from_trackers ph (t :: ts) =
        extract_hostnames_from_trackers ph ts) ∧
    (ph t.url = some none →
      extract_hostnames_from_trackers ph (t :: ts) =
        extract_hostnames_from_trackers ph ts) := by
  refine ⟨rfl, ?_, ?_, ?_⟩
  · intro h
    rw [extract_hostnames_from_trackers, extract_hostnames_from_trackers,
      rawHosts, if_pos h]
  · intro h
    rw [extract_hostnames_from_trackers, extract_hostnames_from_trackers, rawHosts]
    by_cases hu : t.url = ""
    · rw [if_pos hu]
    · rw [if_neg hu, h]
  · intro h
    rw [extract_hostnames_from_trackers, extract_hostnames_from_trackers, rawHosts]
    by_cases hu : t.url = ""
    · rw [if_pos hu]
    · rw [if_neg hu, h]

/-- Concrete url parser with both failure modes, for the C6 witness:
parsing "boom" raises, parsing "nohost" yields no hostname, everything
else is its own hostname. -/
def phPartial : String → Option (Option String) := fun u =>
  if u = "boom" then none else if u = "nohost" then some none else some (some u)

/-- Witness for C6 at concrete inputs exercising all three skip paths. -/
theorem C6_witness :
    (Tracker.mk "").url = "" ∧
    extract_hostnames_from_trackers phPartial [Tracker.mk "", Tracker.mk "a"] =
      extract_hostnames_from_trackers phPartial [Tracker.mk "a"] ∧
    phPartial "boom" = none ∧
    extract_hostnames_from_trackers phPartial [Tracker.mk "boom", Tracker.mk "a"] =
      extract_hostnames_from_trackers phPartial [Tracker.mk "a"] ∧
    phPartial "nohost" = some none ∧
    extract_hostnames_from_trackers phPartial [Tracker.mk "nohost", Tracker.mk "a"] =
      extract_hostnames_from_trackers phPartial [Tracker.mk "a"] ∧
    extract_hostnames_from_trackers phPartial [] = [] := by
  refine ⟨rfl, ?_, rfl, ?_, rfl, ?_, ?_⟩
  · exact (C6_extractor_total phPartial (Tracker.mk "") [Tracker.mk "a"]).2.1 rfl
  · exact (C6_extractor_total phPartial (Tracker.mk "boom") [Tracker.mk "a"]).2.2.1 rfl
  · exact (C6_extractor_total phPartial (Tracker.mk "nohost") [Tracker.mk "a"]).2.2.2 rfl
  · exact (C6_extractor_total phPartial (Tracker.mk "") []).1

/-- Claim C7: the value submitted as the upload limit is the decided
KiB/s value times 1024, floored at zero: 500 becomes 512000, 0 stays 0,
negative values become 0 (and non-negative values are exactly `k * 1024`);
no request is made when no limit was decided. -/
theorem C7_upload_limit_conversion :
    qb_set_upload_limit (some 500) = some 512000 ∧
    qb_set_upload_limit (some 0) = some 0 ∧
    (∀ k : Int, k < 0 → qb_set_upload_limit (some k) = some 0) ∧
    (∀ k : Int, 0 ≤ k → qb_set_upload_limit (some k) = some (k * 1024)) ∧
    qb_set_upload_limit none = none := by
  refine ⟨by decide, by decide, ?_, ?_, rfl⟩
  · intro k hk
    show some (max 0 (k * 1024)) = some 0
    have h : k * 1024 ≤ 0 := by omega
    rw [max_eq_left h]
  · intro k hk
    show some (max 0 (k * 1024)) = some (k * 1024)
    have h : 0 ≤ k * 1024 := by omega
    rw [max_eq_right h]

/-- Witness for C7 at concrete negative and positive limits. -/
theorem C7_witness :
    ((-3 : Int) < 0 ∧ qb_set_upload_limit (some (-3)) = some 0) ∧
    ((0 : Int) ≤ 7 ∧ qb_set_upload_limit (some 7) = some 7168) := by
  refine ⟨⟨by decide, C7_upload_limit_conversion.2.2.1 (-3) (by decide)⟩,
    ⟨by decide, ?_⟩⟩
  have h := C7_upload_limit_conversion.2.2.2.1 7 (by decide)
  rw [h]
  norm_num

/-- Claim C9: with absent (or empty) username or password the run exits
with configuration code 2 having made no remote call at all; with
credentials present and the remote rejecting the login, it exits with
operational code 1 right after the login call. -/
theorem C9_login_exit_codes (rc : String → Option (String → Bool))
    (ph : String → Option (Option String)) (env : Env) :
    (¬ (truthyStr env.username = true ∧ truthyStr env.password = true) →
      mainRun rc ph env = ([], Outcome.exited 2)) ∧
    (truthyStr env.username = true → truthyStr env.password = true →
      (env.loginResp.status ≠ 200 ∨ env.loginResp.text ≠ "Ok.") →
      mainRun rc ph env = ([Action.loginCall], Outcome.exited 1)) := by
  constructor
  · intro hc
    have h : qb_login env.username env.password env.loginResp = (false, some 2) := by
      rw [qb_login, if_pos hc]
    rw [mainRun, h]
    rfl
  · intro hu hp hrej
    have h : qb_login env.username env.password env.loginResp = (true, some 1) := by
      rw [qb_login, if_neg (not_not_intro ⟨hu, hp⟩), if_pos hrej]
    rw [mainRun, h]
    rfl

/-- Witness for C9 at concrete inputs: missing password, then a rejected
login with credentials present. -/
theorem C9_witness :
    mainRun rcNone phId
      { username := some "u", password := none, loginResp := ⟨200, "Ok."⟩,
        rulesFile := none, sourceOk := true, addResp := ⟨200, ""⟩, maxPolls := 0,
        pollResults := fun _ => [], trackersOk := true, trackers := [],
        categoriesOk := true, categories := [], noUnpause := false } =
      ([], Outcome.exited 2) ∧
    mainRun rcNone phId
      { username := some "u", password := some "p", loginResp := ⟨403, "Fails."⟩,
        rulesFile := none, sourceOk := true, addResp := ⟨200, ""⟩, maxPolls := 0,
        pollResults := fun _ => [], trackersOk := true, trackers := [],
        categoriesOk := true, categories := [], noUnpause := false } =
      ([Action.loginCall], Outcome.exited 1) := by
  constructor
  · exact (C9_login_exit_codes rcNone phId _).1 (by decide)
  · exact (C9_login_exit_codes rcNone phId _).2 (by decide) (by decide)
      (Or.inl (by decide))

/-- Claim C10: an HTTP 200 login response whose body is not exactly
"Ok." is still treated as a rejected login: the run exits with code 1. -/
theorem C10_login_body_check (rc : String → Option (String → Bool))
    (ph : String → Option (Option String)) (env : Env)
    (hu : truthyStr env.username = true) (hp : truthyStr env.password = true)
    (_hs : env.loginResp.status = 200) (hb : env.loginResp.text ≠ "Ok.") :
    mainRun rc ph env = ([Action.loginCall], Outcome.exited 1) := by
  have h : qb_login env.username env.password env.loginResp = (true, some 1) := by
    rw [qb_login, if_neg (not_not_intro ⟨hu, hp⟩), if_pos (Or.inr hb)]
  rw [mainRun, h]
  rfl

/-- Witness for C10: a 200 response with body "Fails." is rejected. -/
theorem C10_witness :
    mainRun rcNone phId
      { username := some "u", password := some "p", loginResp := ⟨200, "Fails."⟩,
        rulesFile := none, sourceOk := true, addResp := ⟨200, ""⟩, maxPolls := 0,
        pollResults := fun _ => [], trackersOk := true, trackers := [],
        categoriesOk := true, categories := [], noUnpause := false } =
      ([Action.loginCall], Outcome.exited 1) :=
  C10_login_body_check rcNone phId _ (by decide) (by decide) rfl (by decide)

/-! ### The registration-poll timeout -/

lemma pollLoop_all_empty (f : Nat → List Torrent) :
    ∀ (n i : Nat), (∀ k, k < i + n → f k = []) →
      (pollLoop f n i).2 = [] ∧
      ∀ a ∈ (pollLoop f n i).1, ∃ k, a = Action.queryByTag k
  | 0, i, _ => ⟨rfl, by simp [pollLoop]⟩
  | n + 1, i, h => by
      have hi : f i = [] := h i (by omega)
      have ih := pollLoop_all_empty f n (i + 1) (fun k hk => h k (by omega))
      simp only [pollLoop, if_pos hi]
      refine ⟨ih.1, ?_⟩
      intro a ha
      rcases List.mem_cons.mp ha with rfl | ha'
      · exact ⟨i, rfl⟩
      · exact ih.2 a ha'

/-- Claim C8: when login, rules load and add all succeed but every poll
iteration the deadline admits returns an empty result, the run exits with
operational code 1 and the trace holds nothing but the login call, the add
call and the by-tag queries — no tracker, category, upload-limit, tag or
resume call. -/
theorem C8_timeout_no_further_calls (rc : String → Option (String → Bool))
    (ph : String → Option (Option String)) (env : Env) (cfg : RulesCfg)
    (hu : truthyStr env.username = true) (hp : truthyStr env.password = true)
    (hs : env.loginResp.status = 200) (ht : env.loginResp.text = "Ok.")
    (hr : env.rulesFile = some cfg) (hsrc : env.sourceOk = true)
    (ha : env.addResp.status = 200)
    (hempty : ∀ k, k < env.maxPolls → env.pollResults k = []) :
    (mainRun rc ph env).2 = Outcome.exited 1 ∧
    ∀ a ∈ (mainRun rc ph env).1,
      a = Action.loginCall ∨ a = Action.addCall ∨ ∃ i, a = Action.queryByTag i := by
  have hlog : qb_login env.username env.password env.loginResp = (true, none) := by
    have hcond : ¬ (env.loginResp.status ≠ 200 ∨ env.loginResp.text ≠ "Ok.") := by
      simp [hs, ht]
    rw [qb_login, if_neg (not_not_intro ⟨hu, hp⟩), if_neg hcond]
  have hpoll := pollLoop_all_empty env.pollResults env.maxPolls 0
    (fun k hk => hempty k (by simpa using hk))
  have hrun : mainRun rc ph env =
      (Action.loginCall :: Action.addCall ::
        (pollLoop env.pollResults env.maxPolls 0).1, Outcome.exited 1) := by
    rw [mainRun, hlog, hr]
    simp only [hsrc, ha]
    norm_num
    rw [hpoll.1]
  rw [hrun]
  refine ⟨rfl, ?_⟩
  intro a ha'
  rcases List.mem_cons.mp ha' with rfl | ha'
  · exact Or.inl rfl
  rcases List.mem_cons.mp ha' with rfl | ha'
  · exact Or.inr (Or.inl rfl)
  · exact Or.inr (Or.inr (hpoll.2 a ha'))

/-- Witness for C8: all poll iterations empty in a concrete environment. -/
theorem C8_witness :
    (mainRun rcNone phId
        { username := some "u", password := some "p", loginResp := ⟨200, "Ok."⟩,
          rulesFile := some { rules := [], defaults := { category := none, up_limit_kib := none } },
          sourceOk := true, addResp := ⟨200, ""⟩, maxPolls := 3,
          pollResults := fun _ => [], trackersOk := true, trackers := [],
          categoriesOk := true, categories := [], noUnpause := false }).2 =
      Outcome.exited 1 ∧
    ∀ a ∈ (mainRun rcNone phId
        { username := some "u", password := some "p", loginResp := ⟨200, "Ok."⟩,
          rulesFile := some { rules := [], defaults := { category := none, up_limit_kib := none } },
          sourceOk := true, addResp := ⟨200, ""⟩, maxPolls := 3,
          pollResults := fun _ => [], trackersOk := true, trackers := [],
          categoriesOk := true, categories := [], noUnpause := false }).1,
      a = Action.loginCall ∨ a = Action.addCall ∨ ∃ i, a = Action.queryByTag i :=
  C8_timeout_no_further_calls rcNone phId _
    { rules := [], defaults := { category := none, up_limit_kib := none } }
    (by decide) (by decide) rfl rfl rfl rfl rfl (fun k _ => rfl)

end QbtAdd
